import Mathlib

/-!
Shallow embedding of the core of the `cloudflare-dyndns` repository
(TypeScript) and proofs about it.

Components modelled (each definition is translated from the named source
location):

* `DynDnsApp.calculateNextInterval`, `DynDnsApp.runOnce`, the body of the
  `DynDnsApp.startMonitoring` loop (src/app/DynDnsApp.ts);
* `IpDetectionService.isValidIpv4` and `IpDetectionService.detectIp`
  (src/services/IpDetectionService.ts);
* `CloudflareService.lookupZoneId`, `CloudflareService.initialize`,
  `CloudflareService.retryOperation` (src/services/CloudflareService.ts).

JavaScript numbers are modelled as `Int` (all values involved are small
integers, exactly representable in a double).  JavaScript strings that can
be `undefined` are modelled as `Option String`; JS truthiness of such a
value (`if (this.config.DOMAIN)`) is `jsTruthy`.  Code that can throw is
modelled with `Except`; a `try { … } catch { … }` becomes a `match` on the
`Except` value.  Mutation of fields becomes explicit state passing.
-/

/-- JS truthiness of a `string | undefined` value: `undefined` and the
empty string are falsy, every other string is truthy. -/
def jsTruthy : Option String → Bool
  | none => false
  | some s => s ≠ ""

/-! ## DynDnsApp: adaptive interval and the monitoring loop

From src/app/DynDnsApp.ts.  The mutable fields of the class that the
adaptive-interval logic touches are gathered in `AppState`; the field
initializers of the class give `defaultAppState`. -/

/-- The fields of class `DynDnsApp` used by `calculateNextInterval`
(src/app/DynDnsApp.ts lines 19-23). -/
structure AppState where
  checkInterval : Int
  adaptiveInterval : Bool
  maxInterval : Int
  minInterval : Int
  consecutiveStableChecks : Int
deriving Repr, DecidableEq

/-- Field initializers of `DynDnsApp`: checkInterval = 60000,
adaptiveInterval = true, maxInterval = 300000, minInterval = 30000,
consecutiveStableChecks = 0. -/
def defaultAppState : AppState :=
  { checkInterval := 60000
    adaptiveInterval := true
    maxInterval := 300000
    minInterval := 30000
    consecutiveStableChecks := 0 }

/-- Translation of DynDnsApp.calculateNextInterval (src/app/DynDnsApp.ts lines 105-132).
Returns the updated state (the method mutates `consecutiveStableChecks`)
together with the returned interval in milliseconds. -/
def calculateNextInterval (s : AppState) (ipChanged : Bool) : AppState × Int :=
  if !s.adaptiveInterval then
    (s, s.checkInterval)
  else if ipChanged then
    ({ s with consecutiveStableChecks := 0 }, s.minInterval)
  else
    let s' := { s with consecutiveStableChecks := s.consecutiveStableChecks + 1 }
    let backoffFactor : Int := 5000
    let consecutiveSquared := s'.consecutiveStableChecks * s'.consecutiveStableChecks
    let backoffAmount := min (consecutiveSquared * backoffFactor) (s.maxInterval - s.minInterval)
    let calculatedInterval := s.minInterval + backoffAmount
    let finalInterval := min calculatedInterval s.maxInterval
    (s', finalInterval)

/-- The environment a single `DynDnsApp.runOnce` cycle observes: outcomes
of the collaborators it calls, in program order
(src/app/DynDnsApp.ts lines 138-217). -/
structure RunEnv where
  /-- Models the check of process.env.DEVELOPMENT_MODE being the string true -/
  developmentMode : Bool
  /-- the `debug` constructor argument -/
  debugMode : Bool
  /-- Models whether API_TOKEN starts with the dev_mock prefix -/
  apiTokenIsMock : Bool
  /-- the mock IP built in dev mode -/
  mockIp : String
  /-- Result of the needsSetup check -/
  needsSetup : Bool
  /-- whether `configManager.validate()` returns normally (it throws on
  invalid configuration; the throw is caught by the `catch` of `runOnce`) -/
  validateOk : Bool
  /-- result of `cloudflareService.initialize()` -/
  initializeOk : Bool
  /-- Models process.env.SKIP_CREDENTIAL_CHECK being already set -/
  skipCredentialCheck : Bool
  /-- result of `cloudflareService.verifyCredentials()` -/
  credentialsValid : Bool
  /-- result of `ipDetectionService.detectIp()`; `Except.error` models the
  detection failure being thrown (caught by the `catch` of `runOnce`) -/
  detectResult : Except String String
  /-- Result of ipFileManager.getLastIp, with null becoming none -/
  lastIp : Option String
  /-- result of `cloudflareService.updateDnsRecord(currentIp)` -/
  updateSuccess : Bool
deriving Repr

/-- Translation of DynDnsApp.runOnce (src/app/DynDnsApp.ts lines 138-217).  Returns the
boolean result together with the argument of the `ipFileManager.saveIp`
call made during the cycle (`none` when `saveIp` is not called). -/
def runOnce (env : RunEnv) : Bool × Option String :=
  if env.developmentMode && env.debugMode && env.apiTokenIsMock then
    (true, some env.mockIp)
  else if env.needsSetup then
    (false, none)
  else if !env.validateOk then
    (false, none)
  else if !env.initializeOk then
    (false, none)
  else if !env.skipCredentialCheck && !env.credentialsValid then
    (false, none)
  else
    match env.detectResult with
    | Except.error _ => (false, none)
    | Except.ok currentIp =>
      if some currentIp = env.lastIp then
        (true, none)
      else if env.updateSuccess then
        (true, some currentIp)
      else
        (false, none)

/-- One iteration of the `DynDnsApp.startMonitoring` loop body
(src/app/DynDnsApp.ts lines 235-242):
`const result = await this.runOnce(); ipChanged = !result;
nextInterval = this.calculateNextInterval(ipChanged);`. -/
def monitorStep (s : AppState) (env : RunEnv) : AppState × Int :=
  let result := (runOnce env).1
  let ipChanged := !result
  calculateNextInterval s ipChanged

/-! ## IpDetectionService.isValidIpv4

From src/services/IpDetectionService.ts lines 131-138.  The validator is
modelled at the level of character lists: the JS regex
matching a string of shape g1.g2.g3.g4 with each gi one to three
ASCII digits is expressed through `splitOnDot`, which is the char-level
meaning of the JS split on a dot (the dot groups of a matching string are
exactly its dot-separated chunks).  The octet bound reproduces
`ip.split(.).map(Number).every(num => num >= 0 && num <= 255)`. -/

/-- Char-level meaning of the JS string split on a single dot: cuts the
list at every dot character, keeping empty chunks. -/
def splitOnDot : List Char → List (List Char)
  | [] => [[]]
  | c :: rest =>
    match splitOnDot rest with
    | [] => [[c]]
    | g :: gs => if c = '.' then [] :: g :: gs else (c :: g) :: gs

/-- Inverse of `splitOnDot`: rejoin chunks with a dot between them. -/
def joinDots : List (List Char) → List Char
  | [] => []
  | [g] => g
  | g :: gs => g ++ '.' :: joinDots gs

/-- Value of `Number` on a string of ASCII digits: decimal value. -/
def digitsVal (g : List Char) : Nat :=
  g.foldl (fun a c => a * 10 + (c.toNat - 48)) 0

/-- Boolean test that one dot-group matches the regex piece, one to
three ASCII digits. -/
def groupOk (g : List Char) : Bool :=
  decide (1 ≤ g.length) && decide (g.length ≤ 3) && g.all Char.isDigit

/-- Translation of IpDetectionService.isValidIpv4
(src/services/IpDetectionService.ts lines 131-138): the falsy check on the
argument, the regex test, then the octet-value bound. -/
def isValidIpv4 (ip : List Char) : Bool :=
  if ip = [] then false
  else if !((splitOnDot ip).length == 4 && (splitOnDot ip).all groupOk) then false
  else (splitOnDot ip).all fun g =>
    decide (0 ≤ (digitsVal g : Int)) && decide ((digitsVal g : Int) ≤ 255)

/-- The validator applied to a Lean string. -/
def isValidIpv4Str (s : String) : Bool :=
  isValidIpv4 s.toList

/-- What the specification says a valid octet group is: one to three
ASCII digits whose decimal value is at most 255. -/
def validOctet (g : List Char) : Prop :=
  1 ≤ g.length ∧ g.length ≤ 3 ∧ (∀ c ∈ g, c.isDigit) ∧ digitsVal g ≤ 255

instance (g : List Char) : Decidable (validOctet g) := by
  unfold validOctet
  infer_instance

/-- What the specification says a valid IPv4 string is: exactly four
dot-separated groups, each a valid octet. -/
def ipv4Spec (s : List Char) : Prop :=
  ∃ g1 g2 g3 g4 : List Char,
    s = g1 ++ ('.' :: (g2 ++ ('.' :: (g3 ++ ('.' :: g4))))) ∧
    validOctet g1 ∧ validOctet g2 ∧ validOctet g3 ∧ validOctet g4

/-! ## IpDetectionService.detectIp

From src/services/IpDetectionService.ts lines 76-124.  The loop iterates
over the shuffled provider list; the theorems quantify over every order,
so a list of provider names is the loop input.  Each list entry is paired
with the outcome its HTTP request would have (`Except.error` models a
thrown network error).  All six catalog parsers are the same function
(trim a string body, else take the ip field or empty). -/

/-- A JavaScript exception value as far as the modelled code inspects it:
whether it carries a response with HTTP status 429, the optional
retry-after header of that response, and its message. -/
structure JsError where
  is429 : Bool
  retryAfterHeader : Option String
  message : String
deriving Repr, DecidableEq

/-- The body a provider answered with: a plain string or a JSON object
with an optional ip field. -/
inductive JsData where
  | str (s : String)
  | obj (ip : Option String)
deriving Repr, DecidableEq

/-- The six provider names of the ipServiceEndpoints catalog
(src/services/IpDetectionService.ts lines 25-68). -/
def knownService (svc : String) : Bool :=
  ["ipify", "ifconfig", "ipinfo", "seeip", "ipapi", "myip"].contains svc

/-- Models the falsy check on response.data: an empty string body is
falsy, an object body is always truthy. -/
def jsFalsyData : JsData → Bool
  | JsData.str s => s == ""
  | JsData.obj _ => false

/-- The shared parser of every catalog entry: a string body is trimmed,
an object body yields its ip field, defaulting to the empty string when
the field is absent or empty. -/
def parseIp : JsData → String
  | JsData.str s => s.trim
  | JsData.obj ip =>
    match ip with
    | some s => if s == "" then "" else s
    | none => ""

/-- Outcome of one iteration of the detectIp loop for one provider. -/
inductive DetectStep where
  | success (ip : String)
  | failure (msg : String)
  | skip
deriving Repr, DecidableEq

/-- One iteration of the detectIp loop body
(src/services/IpDetectionService.ts lines 80-117): unknown providers are
skipped with only a warning; a thrown request error or an empty body
records a failure message; a parsed candidate that passes the validator
returns it; an invalid candidate records a failure message. -/
def detectStep (p : String × Except JsError JsData) : DetectStep :=
  if !knownService p.1 then DetectStep.skip
  else
    match p.2 with
    | Except.error e =>
      DetectStep.failure ("Failed to detect IP using " ++ p.1 ++ ": " ++ e.message)
    | Except.ok d =>
      if jsFalsyData d then
        DetectStep.failure
          ("Failed to detect IP using " ++ p.1 ++ ": Empty response from " ++ p.1)
      else
        let ip := parseIp d
        if isValidIpv4Str ip then DetectStep.success ip
        else DetectStep.failure ("Invalid IP format received from " ++ p.1 ++ ": " ++ ip)

/-- The detectIp loop with its errorMessages accumulator
(src/services/IpDetectionService.ts lines 76-124): the first successful
provider short-circuits with its address; when the list is exhausted the
accumulated failure messages are thrown as the aggregated error. -/
def detectIpGo : List (String × Except JsError JsData) → List String →
    Except (List String) String
  | [], errs => Except.error errs
  | p :: rest, errs =>
    match detectStep p with
    | DetectStep.success ip => Except.ok ip
    | DetectStep.failure m => detectIpGo rest (errs ++ [m])
    | DetectStep.skip => detectIpGo rest errs

/-- Translation of IpDetectionService.detectIp: run the loop with an empty
errorMessages accumulator.  An Except.error result carries the list of
aggregated failure reasons of the final thrown error. -/
def detectIp (services : List (String × Except JsError JsData)) :
    Except (List String) String :=
  detectIpGo services []

/-- Whether one provider entry fails to produce an address (it is
unrecognized, its request throws, its body is empty, or its candidate is
not a valid IPv4 address). -/
def detectAttemptFails (p : String × Except JsError JsData) : Bool :=
  match detectStep p with
  | DetectStep.success _ => false
  | _ => true

/-- The failure message one provider entry contributes to the aggregated
error, if any (skipped unrecognized providers contribute none). -/
def detectFailureMsg (p : String × Except JsError JsData) : Option String :=
  match detectStep p with
  | DetectStep.failure m => some m
  | _ => none

/-! ## CloudflareService.retryOperation

From src/services/CloudflareService.ts lines 606-634.  The wrapped
operation is modelled by the stream of outcomes its successive invocations
would produce. -/

/-- Model of the JS parseInt builtin with radix 10 on the strings the
code feeds it: skip leading whitespace, optional sign, then a run of
decimal digits; no digits gives NaN, modelled as none. -/
def jsParseInt (s : String) : Option Int :=
  match s.toList.dropWhile Char.isWhitespace with
  | '-' :: rest =>
    (if (rest.takeWhile Char.isDigit).isEmpty then none
     else some (-(digitsVal (rest.takeWhile Char.isDigit) : Int)))
  | '+' :: rest =>
    (if (rest.takeWhile Char.isDigit).isEmpty then none
     else some ((digitsVal (rest.takeWhile Char.isDigit) : Int)))
  | rest =>
    (if (rest.takeWhile Char.isDigit).isEmpty then none
     else some ((digitsVal (rest.takeWhile Char.isDigit) : Int)))

/-- The sleep duration the catch block of retryOperation picks after a
failed attempt (src/services/CloudflareService.ts lines 615-629): an HTTP
429 response with a truthy retry-after header waits that many seconds in
milliseconds (a NaN product makes setTimeout fire immediately, modelled
as 0); every other failure waits the configured retryDelay. -/
def retryWait (retryDelay : Int) (e : JsError) : Int :=
  if e.is429 && jsTruthy e.retryAfterHeader then
    match jsParseInt (e.retryAfterHeader.getD "") with
    | some n => n * 1000
    | none => 0
  else retryDelay

/-- The loop of retryOperation.  remaining counts attempts left, idx the
number of invocations already made, lastError the error of the latest
failed attempt, waits the sleeps performed so far.  Returns the final
result (the last error is rethrown when every attempt failed), the list
of sleeps, and the total number of invocations of the operation. -/
def retryGo {α : Type} (retryDelay : Int) (outcomes : Nat → Except JsError α) :
    Nat → Nat → Option JsError → List Int → Except JsError α × List Int × Nat
  | 0, idx, lastError, waits =>
    (Except.error (lastError.getD ⟨false, none, "Operation failed after retries"⟩),
     waits, idx)
  | remaining + 1, idx, _, waits =>
    match outcomes idx with
    | Except.ok v => (Except.ok v, waits, idx + 1)
    | Except.error e =>
      retryGo retryDelay outcomes remaining (idx + 1) (some e)
        (waits ++ [retryWait retryDelay e])

/-- Translation of CloudflareService.retryOperation
(src/services/CloudflareService.ts lines 606-634): up to maxRetries
invocations; outcomes k is what the k-th invocation (0-based) of the
wrapped operation returns. -/
def retryOperation {α : Type} (maxRetries : Nat) (retryDelay : Int)
    (outcomes : Nat → Except JsError α) : Except JsError α × List Int × Nat :=
  retryGo retryDelay outcomes maxRetries 0 none []

/-! ## CloudflareService zone discovery and initialization

From src/services/CloudflareService.ts lines 167-283 (initialize) and
lines 322-525 (the lookup helpers it calls).  Every helper catches its own
request exceptions and returns null, so each takes the Except-valued
outcome of its API request and is itself total. -/

/-- A zone object of the list-zones response (id and name fields). -/
structure Zone where
  id : String
  name : String
deriving Repr, DecidableEq

/-- Envelope of the list-zones response. -/
structure ZoneListResponse where
  success : Bool
  result : List Zone
deriving Repr, DecidableEq

/-- A DNS record object as the modelled code reads it: id, name and the
possibly-absent zone_name field. -/
structure DnsRecord where
  id : String
  name : String
  zoneName : Option String
deriving Repr, DecidableEq

/-- Envelope of a response whose result is a list of DNS records. -/
structure RecordListResponse where
  success : Bool
  result : List DnsRecord
deriving Repr, DecidableEq

/-- Envelope of a response whose result is a single, possibly absent,
DNS record object. -/
structure RecordGetResponse where
  success : Bool
  result : Option DnsRecord
deriving Repr, DecidableEq

/-- The configuration fields that CloudflareService.initialize reads and
mutates.  Absent (undefined) values are none. -/
structure CFConfig where
  ZONE_ID : Option String
  DOMAIN : Option String
  SUBDOMAIN : Option String
  FQDN : Option String
  RECORD_ID : Option String
deriving Repr, DecidableEq

/-- Outcomes of the API requests and of the nested ip detection that one
initialize run can perform, in program order. -/
structure InitEnv where
  /-- Outcome of the makeApiRequest of lookupZoneId (list zones). -/
  zoneList : Except JsError ZoneListResponse
  /-- Outcome of the makeApiRequest of lookupFqdnFromRecordId. -/
  recordById : Except JsError RecordGetResponse
  /-- Outcome of the makeApiRequest of lookupRecordId (search by FQDN). -/
  recordByFqdn : Except JsError RecordListResponse
  /-- Outcome of the ip detection inside createDnsRecord. -/
  createDetectIp : Except JsError String
  /-- Outcome of the creation POST of createDnsRecord. -/
  createRecord : Except JsError RecordGetResponse
  /-- Outcome of the makeApiRequest of findSuitableRecord (list A records). -/
  allARecords : Except JsError RecordListResponse
deriving Repr

/-- Case-insensitive string comparison, used to state what the
specification means by a case-insensitively matching zone name: the two
strings agree after lowering every character. -/
def lowerEq (a b : String) : Bool :=
  a.toList.map Char.toLower == b.toList.map Char.toLower

/-- Translation of CloudflareService.lookupZoneId
(src/services/CloudflareService.ts lines 322-370).  A thrown request error
is caught and becomes null.  On success with a nonempty zone list: a
single zone is used unconditionally; with several zones, a truthy
configured DOMAIN selects the first zone whose name strictly equals it
(case-sensitive ===); otherwise the first listed zone is returned as the
logged fallback. -/
def lookupZoneId (domain : Option String)
    (resp : Except JsError ZoneListResponse) : Option String :=
  match resp with
  | Except.error _ => none
  | Except.ok r =>
    match r.result, r.success with
    | z :: rest, true =>
      if rest.isEmpty then some z.id
      else
        match (if jsTruthy domain
               then (z :: rest).find? (fun zo => zo.name == domain.getD "")
               else none) with
        | some m => some m.id
        | none => some z.id
    | _, _ => none

/-- Translation of CloudflareService.lookupRecordId
(src/services/CloudflareService.ts lines 375-404): requires ZONE_ID and
FQDN; on a successful nonempty search result returns the first record id,
else null.  A thrown request error is caught and becomes null. -/
def lookupRecordId (cfg : CFConfig)
    (resp : Except JsError RecordListResponse) : Option String :=
  if !jsTruthy cfg.ZONE_ID then none
  else if !jsTruthy cfg.FQDN then none
  else
    match resp with
    | Except.error _ => none
    | Except.ok r =>
      match r.result, r.success with
      | r0 :: _, true => some r0.id
      | _, _ => none

/-- Translation of CloudflareService.lookupFqdnFromRecordId
(src/services/CloudflareService.ts lines 461-483): requires ZONE_ID and
RECORD_ID; on a successful response with a present result object returns
its name.  A thrown request error is caught and becomes null. -/
def lookupFqdnFromRecordId (cfg : CFConfig)
    (resp : Except JsError RecordGetResponse) : Option String :=
  if !(jsTruthy cfg.ZONE_ID && jsTruthy cfg.RECORD_ID) then none
  else
    match resp with
    | Except.error _ => none
    | Except.ok r =>
      if r.success then
        match r.result with
        | some record => some record.name
        | none => none
      else none

/-- Translation of CloudflareService.createDnsRecord
(src/services/CloudflareService.ts lines 488-525): detect the current IP
(a thrown detection error is caught and becomes null), refuse a falsy IP,
post the record, and return the created record id on a successful
response with a result object. -/
def createDnsRecord (detect : Except JsError String)
    (resp : Except JsError RecordGetResponse) : Option String :=
  match detect with
  | Except.error _ => none
  | Except.ok currentIp =>
    if currentIp = "" then none
    else
      match resp with
      | Except.error _ => none
      | Except.ok r =>
        if r.success then
          match r.result with
          | some record => some record.id
          | none => none
        else none

/-- Translation of CloudflareService.findSuitableRecord
(src/services/CloudflareService.ts lines 409-456): requires ZONE_ID; on a
successful nonempty A-record list prefers the first record whose name
differs from its zone name (undefined treated as empty) and contains no
wildcard star, else falls back to the first record; returns id and name. -/
def findSuitableRecord (cfg : CFConfig)
    (resp : Except JsError RecordListResponse) : Option (String × String) :=
  if !jsTruthy cfg.ZONE_ID then none
  else
    match resp with
    | Except.error _ => none
    | Except.ok r =>
      match r.result, r.success with
      | r0 :: rest, true =>
        match (r0 :: rest).find? (fun record =>
            record.name != record.zoneName.getD "" && !(record.name.contains '*')) with
        | some sub => some (sub.id, sub.name)
        | none => some (r0.id, r0.name)
      | _, _ => none

/-- The subdomain/domain extraction initialize performs after learning a
FQDN (src/services/CloudflareService.ts lines 213-219 and 253-258):
split on dots; with at least two parts the first becomes SUBDOMAIN and
the rest joined with dots becomes DOMAIN. -/
def applyFqdnParts (cfg : CFConfig) (fqdn : String) : CFConfig :=
  let parts := fqdn.splitOn "."
  if parts.length ≥ 2 then
    { cfg with
      SUBDOMAIN := some (parts.headD "")
      DOMAIN := some (String.intercalate "." parts.tail) }
  else cfg

/-- Translation of the try-block body of CloudflareService.initialize
(src/services/CloudflareService.ts lines 167-283), with configuration
mutation as state passing.  The result type admits an uncaught exception
(Except.error), but every helper catches its own request errors, so the
body always completes with Except.ok of the returned boolean and the
final configuration; the version auto-detection step only changes the
cached API version behind its own try/catch and is omitted as non-fatal.
The outer catch of initialize (lines 279-282) is initService below. -/
def initServiceE (cfg : CFConfig) (env : InitEnv) : Except JsError (Bool × CFConfig) :=
  -- Step 1: zone discovery when ZONE_ID is missing
  match (if !jsTruthy cfg.ZONE_ID then
           match lookupZoneId cfg.DOMAIN env.zoneList with
           | some zoneId => some { cfg with ZONE_ID := some zoneId }
           | none => none
         else some cfg) with
  | none => Except.ok (false, cfg)
  | some cfg1 =>
    -- Step 2: build FQDN from DOMAIN and SUBDOMAIN
    let cfg2 :=
      if jsTruthy cfg1.DOMAIN && jsTruthy cfg1.SUBDOMAIN && !jsTruthy cfg1.FQDN then
        { cfg1 with FQDN := some ((cfg1.SUBDOMAIN.getD "") ++ "." ++ (cfg1.DOMAIN.getD "")) }
      else cfg1
    -- Step 3: learn FQDN from a configured RECORD_ID
    let cfg3 :=
      if !jsTruthy cfg2.FQDN && jsTruthy cfg2.RECORD_ID then
        match lookupFqdnFromRecordId cfg2 env.recordById with
        | some fqdn =>
          if fqdn ≠ "" then applyFqdnParts { cfg2 with FQDN := some fqdn } fqdn
          else cfg2
        | none => cfg2
      else cfg2
    -- Step 4: find or create the record when RECORD_ID is missing
    match (if !jsTruthy cfg3.RECORD_ID && jsTruthy cfg3.FQDN then
             match lookupRecordId cfg3 env.recordByFqdn with
             | some recordId => some (some { cfg3 with RECORD_ID := some recordId })
             | none =>
               match createDnsRecord env.createDetectIp env.createRecord with
               | some newId => some (some { cfg3 with RECORD_ID := some newId })
               | none => some none
           else some (some cfg3)) with
    | some none => Except.ok (false, cfg3)
    | none => Except.ok (false, cfg3)
    | some (some cfg4) =>
      -- Step 5: last-resort record discovery
      match (if !jsTruthy cfg4.RECORD_ID then
               match findSuitableRecord cfg4 env.allARecords with
               | some (rid, rname) =>
                 some (applyFqdnParts
                   { cfg4 with RECORD_ID := some rid, FQDN := some rname } rname)
               | none => none
             else some cfg4) with
      | none => Except.ok (false, cfg4)
      | some cfg5 =>
        -- Final validation
        if !jsTruthy cfg5.RECORD_ID || !jsTruthy cfg5.ZONE_ID then
          Except.ok (false, cfg5)
        else
          Except.ok (true, cfg5)

/-- Translation of CloudflareService.initialize including its outer catch
(src/services/CloudflareService.ts lines 279-282): an uncaught exception
of the body would become a false return. -/
def initService (cfg : CFConfig) (env : InitEnv) : Bool × CFConfig :=
  match initServiceE cfg env with
  | Except.ok r => r
  | Except.error _ => (false, cfg)

theorem splitOnDot_ne_nil (l : List Char) : splitOnDot l ≠ [] := by
  induction l with
  | nil => simp [splitOnDot]
  | cons c rest ih =>
    unfold splitOnDot
    cases h : splitOnDot rest with
    | nil => simp
    | cons g gs =>
      by_cases hc : c = '.' <;> simp [hc]

theorem joinDots_splitOnDot (l : List Char) : joinDots (splitOnDot l) = l := by
  induction l with
  | nil => simp [splitOnDot, joinDots]
  | cons c rest ih =>
    unfold splitOnDot
    cases h : splitOnDot rest with
    | nil => exact absurd h (splitOnDot_ne_nil rest)
    | cons g gs =>
      rw [h] at ih
      by_cases hc : c = '.'
      · subst hc
        simp only [if_pos rfl]
        cases gs with
        | nil => simp [joinDots] at ih ⊢; exact ih
        | cons g2 gs2 => simp [joinDots] at ih ⊢; exact ih
      · simp only [if_neg hc]
        cases gs with
        | nil => simp [joinDots] at ih ⊢; exact ih
        | cons g2 gs2 =>
          simp only [joinDots] at ih ⊢
          simp [ih]

theorem no_dot_of_mem_splitOnDot (l : List Char) (g : List Char)
    (hg : g ∈ splitOnDot l) : '.' ∉ g := by
  induction l generalizing g with
  | nil =>
    simp [splitOnDot] at hg
    subst hg
    simp
  | cons c rest ih =>
    unfold splitOnDot at hg
    cases h : splitOnDot rest with
    | nil => exact absurd h (splitOnDot_ne_nil rest)
    | cons g0 gs =>
      rw [h] at hg
      by_cases hc : c = '.'
      · subst hc
        simp at hg
        rcases hg with hg | hg | hg
        · subst hg; simp
        · subst hg; exact ih g (by rw [h]; exact List.mem_cons_self _ _)
        · exact ih g (by rw [h]; exact List.mem_cons_of_mem _ hg)
      · simp [hc] at hg
        rcases hg with hg | hg
        · subst hg
          intro hmem
          rcases List.mem_cons.mp hmem with h1 | h1
          · exact hc h1.symm
          · exact ih g0 (by rw [h]; exact List.mem_cons_self _ _) h1
        · exact ih g (by rw [h]; exact List.mem_cons_of_mem _ hg)

theorem splitOnDot_cons (c : Char) (rest : List Char) :
    splitOnDot (c :: rest) =
      match splitOnDot rest with
      | [] => [[c]]
      | g :: gs => if c = '.' then [] :: g :: gs else (c :: g) :: gs := rfl

theorem splitOnDot_append (g t : List Char) (hg : '.' ∉ g) :
    splitOnDot (g ++ '.' :: t) = g :: splitOnDot t := by
  induction g with
  | nil =>
    rw [List.nil_append, splitOnDot_cons]
    cases h : splitOnDot t with
    | nil => exact absurd h (splitOnDot_ne_nil t)
    | cons g0 gs => simp
  | cons a g2 ih =>
    have ha : a ≠ '.' := fun h => hg (h ▸ List.mem_cons_self _ _)
    have hg2 : '.' ∉ g2 := fun h => hg (List.mem_cons_of_mem _ h)
    rw [List.cons_append, splitOnDot_cons, ih hg2]
    simp [ha]

theorem splitOnDot_no_dot (g : List Char) (hg : '.' ∉ g) :
    splitOnDot g = [g] := by
  induction g with
  | nil => simp [splitOnDot]
  | cons a g2 ih =>
    have ha : a ≠ '.' := fun h => hg (h ▸ List.mem_cons_self _ _)
    have hg2 : '.' ∉ g2 := fun h => hg (List.mem_cons_of_mem _ h)
    rw [splitOnDot_cons, ih hg2]
    simp [ha]

theorem groupOk_eq_true_iff (g : List Char) :
    groupOk g = true ↔ (1 ≤ g.length ∧ g.length ≤ 3 ∧ ∀ c ∈ g, c.isDigit) := by
  unfold groupOk
  simp [List.all_eq_true, and_assoc]

theorem no_dot_of_digits (g : List Char) (h : ∀ c ∈ g, c.isDigit) :
    '.' ∉ g := by
  intro hmem
  have := h '.' hmem
  simp [Char.isDigit] at this

theorem isValidIpv4_eq_true_iff (s : List Char) :
    isValidIpv4 s = true ↔ ipv4Spec s := by
  constructor
  · intro h
    unfold isValidIpv4 at h
    by_cases hs : s = []
    · simp [hs] at h
    rw [if_neg hs] at h
    by_cases hre : ((splitOnDot s).length == 4 && (splitOnDot s).all groupOk) = true
    · rw [hre] at h
      simp only [Bool.not_true, Bool.false_eq_true, if_false] at h
      have hlen : (splitOnDot s).length = 4 := by
        have := (Bool.and_eq_true _ _).mp hre |>.1
        simpa using this
      have hall : ∀ g ∈ splitOnDot s, groupOk g = true := by
        have := (Bool.and_eq_true _ _).mp hre |>.2
        exact List.all_eq_true.mp this
      have hval : ∀ g ∈ splitOnDot s, digitsVal g ≤ 255 := by
        intro g hg
        have hb := List.all_eq_true.mp h g hg
        have := (Bool.and_eq_true _ _).mp hb |>.2
        have h255 : (digitsVal g : Int) ≤ 255 := of_decide_eq_true this
        exact_mod_cast h255
      obtain ⟨a, b, c, d, hparts⟩ : ∃ a b c d, splitOnDot s = [a, b, c, d] := by
        rcases hsp : splitOnDot s with _ | ⟨a, _ | ⟨b, _ | ⟨c, _ | ⟨d, _ | ⟨e, rest⟩⟩⟩⟩⟩ <;>
          rw [hsp] at hlen <;> simp at hlen
        exact ⟨a, b, c, d, rfl⟩
      have hjoin := joinDots_splitOnDot s
      rw [hparts] at hjoin
      have hshape : s = a ++ ('.' :: (b ++ ('.' :: (c ++ ('.' :: d))))) := by
        rw [← hjoin]; simp [joinDots]
      refine ⟨a, b, c, d, hshape, ?_, ?_, ?_, ?_⟩ <;>
      · first
        | (refine ⟨?_, ?_, ?_, ?_⟩
           · exact (groupOk_eq_true_iff _ |>.mp (hall _ (by rw [hparts]; simp))).1
           · exact (groupOk_eq_true_iff _ |>.mp (hall _ (by rw [hparts]; simp))).2.1
           · exact (groupOk_eq_true_iff _ |>.mp (hall _ (by rw [hparts]; simp))).2.2
           · exact hval _ (by rw [hparts]; simp))
    · rw [Bool.not_eq_true] at hre
      rw [hre] at h
      simp at h
  · rintro ⟨a, b, c, d, hshape, ha, hb, hc, hd⟩
    have hda : '.' ∉ a := no_dot_of_digits a ha.2.2.1
    have hdb : '.' ∉ b := no_dot_of_digits b hb.2.2.1
    have hdc : '.' ∉ c := no_dot_of_digits c hc.2.2.1
    have hdd : '.' ∉ d := no_dot_of_digits d hd.2.2.1
    have hsplit : splitOnDot s = [a, b, c, d] := by
      rw [hshape, splitOnDot_append a _ hda, splitOnDot_append b _ hdb,
        splitOnDot_append c _ hdc, splitOnDot_no_dot d hdd]
    have hs : s ≠ [] := by
      rw [hshape]
      cases a <;> simp
    unfold isValidIpv4
    rw [if_neg hs, hsplit]
    have hgOk : ∀ g : List Char, validOctet g → groupOk g = true := by
      intro g hg
      exact (groupOk_eq_true_iff g).mpr ⟨hg.1, hg.2.1, hg.2.2.1⟩
    simp only [List.all_cons, List.all_nil, List.length_cons, List.length_nil]
    rw [hgOk a ha, hgOk b hb, hgOk c hc, hgOk d hd]
    simp only [Bool.and_true, Bool.true_and, Bool.not_true, beq_self_eq_true]
    have hv : ∀ g : List Char, validOctet g →
        (decide (0 ≤ (digitsVal g : Int)) && decide ((digitsVal g : Int) ≤ 255)) = true := by
      intro g hg
      have h1 : (0 : Int) ≤ (digitsVal g : Int) := Int.ofNat_nonneg _
      have h2 : (digitsVal g : Int) ≤ 255 := by exact_mod_cast hg.2.2.2
      simp [h1, h2]
    simp only [hv a ha, hv b hb, hv c hc, hv d hd, Bool.and_self]
    simp

/-- C4: the IPv4 validator accepts a string if and only if it consists of
exactly four dot-separated groups of one to three ASCII digits with each
group value between 0 and 255 inclusive; the listed malformed strings
(wrong group count, non-digit, group above 255) are rejected. -/
theorem C4_ipv4_validator_iff :
    (∀ s : List Char, isValidIpv4 s = true ↔ ipv4Spec s) ∧
    isValidIpv4Str "1.2.3.256" = false ∧
    isValidIpv4Str "1.2.3" = false ∧
    isValidIpv4Str "1.2.3.4.5" = false ∧
    isValidIpv4Str "abc.2.3.4" = false ∧
    isValidIpv4Str "203.0.113.5" = true :=
  ⟨isValidIpv4_eq_true_iff, by decide, by decide, by decide, by decide, by decide⟩

/-- C1: the claim states that a cycle that detected an IP change resets
the stable counter and yields the minimum interval.  Counterexample: a
cycle that detects a change (last IP 1.1.1.1, detected 2.2.2.2, so the
update path runs and persists the new IP) and whose update succeeds makes
runOnce return true; the monitoring loop derives ipChanged from the
negated boolean result only, so it treats this cycle as stable: from
counter 0 the counter becomes 1 (not 0) and the next interval is 35000ms
(not the 30000ms minimum). -/
theorem C1_counterexample :
    runOnce ⟨false, false, false, "", false, true, true, true, true,
        Except.ok "2.2.2.2", some "1.1.1.1", true⟩ = (true, some "2.2.2.2") ∧
    monitorStep defaultAppState ⟨false, false, false, "", false, true, true, true, true,
        Except.ok "2.2.2.2", some "1.1.1.1", true⟩ =
      ({ checkInterval := 60000, adaptiveInterval := true, maxInterval := 300000,
         minInterval := 30000, consecutiveStableChecks := 1 }, 35000) ∧
    (35000 : Int) ≠ 30000 ∧ (1 : Int) ≠ 0 := by
  refine ⟨by decide, by decide, by decide, by decide⟩

/-- C1 (amended): in continuous monitoring with adaptive intervals
enabled, every cycle whose runOnce returned false — which includes every
cycle that detected a change but failed to update, and every failed
cycle — resets the consecutive-stable-check counter to zero and the next
wait interval equals the minimum interval; a cycle that detected a change
and updated successfully returns true and is instead treated as stable. -/
theorem C1_failed_cycle_resets (s : AppState) (env : RunEnv)
    (had : s.adaptiveInterval = true) (hfail : (runOnce env).1 = false) :
    monitorStep s env = ({ s with consecutiveStableChecks := 0 }, s.minInterval) := by
  unfold monitorStep calculateNextInterval
  rw [hfail]
  simp [had]

/-- Witness for C1_failed_cycle_resets: a concrete failed cycle (update
failure after a detected change) under the default state yields counter 0
and the 30000ms minimum interval. -/
theorem C1_failed_cycle_resets_witness :
    defaultAppState.adaptiveInterval = true ∧
    (runOnce ⟨false, false, false, "", false, true, true, true, true,
        Except.ok "2.2.2.2", some "1.1.1.1", false⟩).1 = false ∧
    monitorStep defaultAppState ⟨false, false, false, "", false, true, true, true, true,
        Except.ok "2.2.2.2", some "1.1.1.1", false⟩ =
      ({ defaultAppState with consecutiveStableChecks := 0 }, 30000) :=
  ⟨rfl, by decide,
    (C1_failed_cycle_resets defaultAppState
      ⟨false, false, false, "", false, true, true, true, true,
        Except.ok "2.2.2.2", some "1.1.1.1", false⟩ rfl (by decide)).trans (by decide)⟩

/-- C5: with adaptive intervals enabled, minimum 30000ms and maximum
300000ms, a no-change cycle increments the counter to n and returns
min(30000 + min(n² * 5000, 300000 − 30000), 300000); the result never
exceeds 300000; and starting from a changed state at counter 0 the
produced intervals are 30000, 35000, 50000, 75000, 110000 for counters
0, 1, 2, 3, 4. -/
theorem C5_adaptive_interval_formula :
    (∀ ck c : Int,
      calculateNextInterval ⟨ck, true, 300000, 30000, c⟩ false =
        (⟨ck, true, 300000, 30000, c + 1⟩,
         min (30000 + min ((c + 1) * (c + 1) * 5000) (300000 - 30000)) 300000)) ∧
    (∀ ck c : Int,
      (calculateNextInterval ⟨ck, true, 300000, 30000, c⟩ false).2 ≤ 300000) ∧
    calculateNextInterval defaultAppState true = (defaultAppState, 30000) ∧
    calculateNextInterval defaultAppState false =
      ({ defaultAppState with consecutiveStableChecks := 1 }, 35000) ∧
    calculateNextInterval { defaultAppState with consecutiveStableChecks := 1 } false =
      ({ defaultAppState with consecutiveStableChecks := 2 }, 50000) ∧
    calculateNextInterval { defaultAppState with consecutiveStableChecks := 2 } false =
      ({ defaultAppState with consecutiveStableChecks := 3 }, 75000) ∧
    calculateNextInterval { defaultAppState with consecutiveStableChecks := 3 } false =
      ({ defaultAppState with consecutiveStableChecks := 4 }, 110000) := by
  refine ⟨fun ck c => rfl, fun ck c => min_le_right _ _,
    by decide, by decide, by decide, by decide, by decide⟩

/-- C6: a runOnce cycle that reaches the comparison step is a no-op
success when the detected IP equals the stored last IP (nothing written);
otherwise the new IP is passed to saveIp exactly when updateDnsRecord
returned true, and on update failure nothing is written and the cycle
returns false. -/
theorem C6_compare_update_persist (env : RunEnv) (currentIp : String)
    (hdev : (env.developmentMode && env.debugMode && env.apiTokenIsMock) = false)
    (hsetup : env.needsSetup = false)
    (hval : env.validateOk = true)
    (hinit : env.initializeOk = true)
    (hcred : (!env.skipCredentialCheck && !env.credentialsValid) = false)
    (hdet : env.detectResult = Except.ok currentIp) :
    (some currentIp = env.lastIp → runOnce env = (true, none)) ∧
    (some currentIp ≠ env.lastIp →
      runOnce env =
        if env.updateSuccess then (true, some currentIp) else (false, none)) := by
  unfold runOnce
  rw [hdev, hsetup, hval, hinit, hcred, hdet]
  constructor
  · intro heq
    simp [heq]
  · intro hne
    simp [hne]

/-- Witness for C6_compare_update_persist: a concrete cycle that detects
a change and whose update fails returns false without writing the store. -/
theorem C6_compare_update_persist_witness :
    runOnce ⟨false, false, false, "", false, true, true, true, true,
      Except.ok "5.6.7.8", some "1.2.3.4", false⟩ = (false, none) := by
  have h := (C6_compare_update_persist
      ⟨false, false, false, "", false, true, true, true, true,
        Except.ok "5.6.7.8", some "1.2.3.4", false⟩ "5.6.7.8"
      rfl rfl rfl rfl rfl rfl).2 (by decide)
  simpa using h

/-- C2: the claim states that with multiple zones, a configured domain
and no case-insensitively matching zone, initialize fails rather than
selecting a zone.  Counterexample: with two zones foo.net and bar.org
and configured domain example.com (matching neither, in any case),
lookupZoneId falls back to the first listed zone z1 and initialize
proceeds with it, returning true. -/
theorem C2_counterexample :
    1 < ([⟨"z1", "foo.net"⟩, ⟨"z2", "bar.org"⟩] : List Zone).length ∧
    ([⟨"z1", "foo.net"⟩, ⟨"z2", "bar.org"⟩] : List Zone).all
      (fun z => !lowerEq z.name "example.com") = true ∧
    initService ⟨none, some "example.com", some "home", none, none⟩
      ⟨Except.ok ⟨true, [⟨"z1", "foo.net"⟩, ⟨"z2", "bar.org"⟩]⟩,
       Except.error ⟨false, none, "unused"⟩,
       Except.ok ⟨true, [⟨"r1", "home.example.com", some "foo.net"⟩]⟩,
       Except.error ⟨false, none, "unused"⟩,
       Except.error ⟨false, none, "unused"⟩,
       Except.error ⟨false, none, "unused"⟩⟩ =
      (true, ⟨some "z1", some "example.com", some "home",
              some "home.example.com", some "r1"⟩) :=
  ⟨by decide, by decide, by decide⟩

/-- C2 (amended): for every zone-listing response with more than one
zone, when no zone identifier is configured and no listed zone name is
strictly equal to the configured domain, zone discovery does not fail: it
falls back to the first listed zone and returns its identifier (logged as
a default), which initialize then adopts. -/
theorem C2_no_match_falls_back_to_first_zone (d : String) (z1 z2 : Zone)
    (zs : List Zone)
    (hnone : (z1 :: z2 :: zs).find? (fun zo => zo.name == d) = none) :
    lookupZoneId (some d) (Except.ok ⟨true, z1 :: z2 :: zs⟩) = some z1.id := by
  unfold lookupZoneId
  cases hd : jsTruthy (some d) with
  | false => simp [hd]
  | true => simp [hd, hnone]

/-- Witness for C2_no_match_falls_back_to_first_zone at a concrete
two-zone response with a non-matching configured domain. -/
theorem C2_no_match_falls_back_witness :
    ([⟨"z1", "foo.net"⟩, ⟨"z2", "bar.org"⟩] : List Zone).find?
        (fun zo => zo.name == "example.com") = none ∧
    lookupZoneId (some "example.com")
      (Except.ok ⟨true, [⟨"z1", "foo.net"⟩, ⟨"z2", "bar.org"⟩]⟩) = some "z1" :=
  ⟨by decide,
    C2_no_match_falls_back_to_first_zone "example.com" ⟨"z1", "foo.net"⟩
      ⟨"z2", "bar.org"⟩ [] (by decide)⟩

/-- C3: the claim states that zone selection is case-insensitive.
Counterexample: zone Example.COM equals the configured domain example.com
ignoring case, yet the strict equality in the code fails to match it and
the first zone z1 is returned instead of z2. -/
theorem C3_counterexample :
    lowerEq "Example.COM" "example.com" = true ∧
    lookupZoneId (some "example.com")
      (Except.ok ⟨true, [⟨"z1", "other.com"⟩, ⟨"z2", "Example.COM"⟩]⟩) = some "z1" ∧
    ("z1" : String) ≠ "z2" :=
  ⟨by decide, by decide, by decide⟩

/-- C3 (amended): zone selection is case-sensitive: with multiple zones,
no configured zone identifier and a truthy configured domain, the first
zone whose name is strictly equal to the domain is the one whose
identifier is adopted; a zone whose name differs only in capitalization
is not matched. -/
theorem C3_exact_match_selected (d : String) (z1 z2 : Zone) (zs : List Zone)
    (m : Zone) (hd : d ≠ "")
    (hfind : (z1 :: z2 :: zs).find? (fun zo => zo.name == d) = some m) :
    lookupZoneId (some d) (Except.ok ⟨true, z1 :: z2 :: zs⟩) = some m.id := by
  have hdt : jsTruthy (some d) = true := by simp [jsTruthy, hd]
  unfold lookupZoneId
  simp [hdt, hfind]

/-- Witness for C3_exact_match_selected at a concrete two-zone response
whose second zone exactly matches the configured domain. -/
theorem C3_exact_match_selected_witness :
    ("example.com" : String) ≠ "" ∧
    ([⟨"z1", "other.com"⟩, ⟨"z2", "example.com"⟩] : List Zone).find?
        (fun zo => zo.name == "example.com") = some ⟨"z2", "example.com"⟩ ∧
    lookupZoneId (some "example.com")
      (Except.ok ⟨true, [⟨"z1", "other.com"⟩, ⟨"z2", "example.com"⟩]⟩) = some "z2" :=
  ⟨by decide, by decide,
    C3_exact_match_selected "example.com" ⟨"z1", "other.com"⟩ ⟨"z2", "example.com"⟩
      [] ⟨"z2", "example.com"⟩ (by decide) (by decide)⟩

theorem retryGo_invocations_le {α : Type} (rd : Int) (oc : Nat → Except JsError α) :
    ∀ (remaining idx : Nat) (lastE : Option JsError) (acc : List Int),
      (retryGo rd oc remaining idx lastE acc).2.2 ≤ idx + remaining := by
  intro remaining
  induction remaining with
  | zero =>
    intro idx lastE acc
    simp [retryGo]
  | succ m ih =>
    intro idx lastE acc
    cases hoc : oc idx with
    | ok v =>
      simp [retryGo, hoc]
    | error e =>
      simp only [retryGo, hoc]
      exact le_trans (ih (idx + 1) (some e) _) (by omega)

theorem map_range_succ_shift (f : Nat → Int) (n : Nat) :
    f 0 :: (List.range n).map (fun k => f (k + 1)) = (List.range (n + 1)).map f := by
  rw [List.range_succ_eq_map, List.map_cons, List.map_map]
  rfl

theorem retryGo_all_fail {α : Type} (rd : Int) (oc : Nat → Except JsError α)
    (es : Nat → JsError) :
    ∀ (remaining idx : Nat) (lastE : Option JsError) (acc : List Int),
      0 < remaining →
      (∀ k, k < remaining → oc (idx + k) = Except.error (es (idx + k))) →
      retryGo rd oc remaining idx lastE acc =
        (Except.error (es (idx + remaining - 1)),
         acc ++ (List.range remaining).map (fun k => retryWait rd (es (idx + k))),
         idx + remaining) := by
  intro remaining
  induction remaining with
  | zero =>
    intro idx lastE acc hpos
    exact absurd hpos (lt_irrefl 0)
  | succ m ih =>
    intro idx lastE acc hpos hfail
    have h0 : oc idx = Except.error (es idx) := by
      simpa using hfail 0 (Nat.succ_pos m)
    cases m with
    | zero =>
      simp [retryGo, h0, List.range_succ]
    | succ m2 =>
      have step : retryGo rd oc (m2 + 1 + 1) idx lastE acc =
          retryGo rd oc (m2 + 1) (idx + 1) (some (es idx))
            (acc ++ [retryWait rd (es idx)]) := by
        simp [retryGo, h0]
      rw [step, ih (idx + 1) (some (es idx)) (acc ++ [retryWait rd (es idx)])
        (Nat.succ_pos m2) (fun k hk => by
          have h := hfail (k + 1) (by omega)
          have harith : idx + (k + 1) = idx + 1 + k := by omega
          rw [harith] at h
          exact h)]
      have hidx : idx + 1 + (m2 + 1) - 1 = idx + (m2 + 1 + 1) - 1 := by omega
      have hcount : idx + 1 + (m2 + 1) = idx + (m2 + 1 + 1) := by omega
      have hfun : (fun k => retryWait rd (es (idx + 1 + k))) =
          (fun k => retryWait rd (es (idx + (k + 1)))) := by
        funext k
        have h : idx + 1 + k = idx + (k + 1) := by omega
        rw [h]
      have hlist : acc ++ [retryWait rd (es idx)] ++
            (List.range (m2 + 1)).map (fun k => retryWait rd (es (idx + 1 + k))) =
          acc ++ (List.range (m2 + 1 + 1)).map
            (fun k => retryWait rd (es (idx + k))) := by
        rw [hfun, List.append_assoc]
        congr 1
        exact map_range_succ_shift (fun k => retryWait rd (es (idx + k))) (m2 + 1)
      rw [hidx, hcount, hlist]

/-- C7: the retry wrapper invokes the wrapped operation at most
maxRetries times; after a 429 failure carrying a parseable retry-after
header it waits that many seconds in milliseconds (retry-after 2 gives
2000ms), after a 429 without the header or any other failure it waits the
configured base delay; and when every attempt fails the error of the last
attempt is the one rethrown. -/
theorem C7_retry_policy (α : Type) :
    (∀ (n : Nat) (rd : Int) (oc : Nat → Except JsError α),
      (retryOperation n rd oc).2.2 ≤ n) ∧
    (∀ (rd : Int) (e : JsError) (h : String) (v : Int),
      e.is429 = true → e.retryAfterHeader = some h → jsParseInt h = some v →
      retryWait rd e = v * 1000) ∧
    (∀ (rd : Int) (e : JsError), e.is429 = false → retryWait rd e = rd) ∧
    (∀ (rd : Int) (e : JsError), e.is429 = true → e.retryAfterHeader = none →
      retryWait rd e = rd) ∧
    (∀ (n : Nat) (rd : Int) (oc : Nat → Except JsError α) (es : Nat → JsError),
      0 < n → (∀ k, k < n → oc k = Except.error (es k)) →
      retryOperation n rd oc =
        (Except.error (es (n - 1)),
         (List.range n).map (fun k => retryWait rd (es k)), n)) := by
  refine ⟨?_, ?_, ?_, ?_, ?_⟩
  · intro n rd oc
    simpa using retryGo_invocations_le rd oc n 0 none []
  · intro rd e h v h429 hh hparse
    have hne : h ≠ "" := by
      intro heq
      subst heq
      simp [jsParseInt] at hparse
    unfold retryWait
    rw [h429, hh]
    simp [jsTruthy, hne, hparse]
  · intro rd e h429
    simp [retryWait, h429]
  · intro rd e h429 hh
    simp [retryWait, h429, hh, jsTruthy]
  · intro n rd oc es hpos hfail
    have h := retryGo_all_fail rd oc es n 0 none [] hpos
      (fun k hk => by simpa using hfail k hk)
    simpa using h

/-- Witness for C7_retry_policy: three attempts against an operation that
fails with a 429 carrying retry-after 2 and then twice with a plain
server error wait 2000ms, 5000ms, 5000ms and rethrow the last error. -/
theorem C7_retry_policy_witness :
    (0 < 3) ∧
    retryOperation (α := Unit) 3 5000
      (fun i => Except.error (if i = 0 then ⟨true, some "2", "rate limited"⟩
                              else ⟨false, none, "server error"⟩)) =
      (Except.error ⟨false, none, "server error"⟩, [2000, 5000, 5000], 3) := by
  refine ⟨by decide, ?_⟩
  have h := (C7_retry_policy Unit).2.2.2.2 3 5000
    (fun i => Except.error (if i = 0 then (⟨true, some "2", "rate limited"⟩ : JsError)
                            else ⟨false, none, "server error"⟩))
    (fun i => if i = 0 then (⟨true, some "2", "rate limited"⟩ : JsError)
              else ⟨false, none, "server error"⟩)
    (by decide) (fun k hk => rfl)
  rw [h]
  rfl

theorem detectIpGo_cons (p : String × Except JsError JsData)
    (rest : List (String × Except JsError JsData)) (errs : List String) :
    detectIpGo (p :: rest) errs =
      match detectStep p with
      | DetectStep.success ip => Except.ok ip
      | DetectStep.failure m => detectIpGo rest (errs ++ [m])
      | DetectStep.skip => detectIpGo rest errs := rfl

theorem detectIpGo_all_fail :
    ∀ (services : List (String × Except JsError JsData)) (errs : List String),
      services.all detectAttemptFails = true →
      detectIpGo services errs =
        Except.error (errs ++ services.filterMap detectFailureMsg) := by
  intro services
  induction services with
  | nil =>
    intro errs h
    simp [detectIpGo]
  | cons p rest ih =>
    intro errs h
    rw [List.all_cons, Bool.and_eq_true] at h
    obtain ⟨hp, hrest⟩ := h
    cases hstep : detectStep p with
    | success ip =>
      unfold detectAttemptFails at hp
      rw [hstep] at hp
      simp at hp
    | failure m =>
      have hmsg : detectFailureMsg p = some m := by
        unfold detectFailureMsg
        rw [hstep]
      have hgo : detectIpGo (p :: rest) errs = detectIpGo rest (errs ++ [m]) := by
        rw [detectIpGo_cons, hstep]
      rw [hgo, ih (errs ++ [m]) hrest, List.filterMap_cons, hmsg]
      simp
    | skip =>
      have hmsg : detectFailureMsg p = none := by
        unfold detectFailureMsg
        rw [hstep]
      have hgo : detectIpGo (p :: rest) errs = detectIpGo rest errs := by
        rw [detectIpGo_cons, hstep]
      rw [hgo, ih errs hrest, List.filterMap_cons, hmsg]

/-- C8: the claim states that when every configured provider fails
(including by being an unrecognized name) the aggregated error carries
each provider's individual failure reason.  Counterexample: a provider
list consisting of one unrecognized name fails as a whole, but the
unrecognized provider is skipped with only a warning and contributes no
reason, so the aggregated error is empty: it has fewer reasons than there
are failed providers. -/
theorem C8_counterexample :
    ([("bogus", Except.ok (JsData.str "1.2.3.4"))] :
        List (String × Except JsError JsData)).all detectAttemptFails = true ∧
    detectIp [("bogus", Except.ok (JsData.str "1.2.3.4"))] = Except.error [] ∧
    ([] : List String).length <
      ([("bogus", Except.ok (JsData.str "1.2.3.4"))] :
        List (String × Except JsError JsData)).length :=
  ⟨by decide, by rfl, by decide⟩

/-- C8 (amended): when every configured provider fails, detectIp fails
with no partial result, and the aggregated error carries one failure
reason per recognized provider that failed (network error, empty
response, invalid format); unrecognized provider names are skipped with a
warning and contribute no reason. -/
theorem C8_exhaustion_aggregates (services : List (String × Except JsError JsData))
    (h : services.all detectAttemptFails = true) :
    detectIp services = Except.error (services.filterMap detectFailureMsg) := by
  simpa using detectIpGo_all_fail services [] h

/-- Witness for C8_exhaustion_aggregates: two recognized failing
providers produce the two aggregated failure reasons. -/
theorem C8_exhaustion_aggregates_witness :
    ([("ipify", Except.error ⟨false, none, "timeout"⟩),
      ("seeip", Except.ok (JsData.str ""))] :
        List (String × Except JsError JsData)).all detectAttemptFails = true ∧
    detectIp [("ipify", Except.error ⟨false, none, "timeout"⟩),
        ("seeip", Except.ok (JsData.str ""))] =
      Except.error ["Failed to detect IP using ipify: timeout",
        "Failed to detect IP using seeip: Empty response from seeip"] := by
  refine ⟨by decide, ?_⟩
  have h := C8_exhaustion_aggregates
    [("ipify", Except.error ⟨false, none, "timeout"⟩),
     ("seeip", Except.ok (JsData.str ""))] (by decide)
  rw [h]
  rfl

/-- C9: for every provider order, detectIp returns the candidate of the
first provider in the order whose parsed response is a valid IPv4
address; earlier entries that produced no address only accumulate error
reasons (any accumulator errs gives the same success), and the result
does not depend on the providers after the first success, which are never
contacted. -/
theorem C9_first_valid_provider_wins
    (pre post : List (String × Except JsError JsData))
    (p : String × Except JsError JsData) (ip : String) (errs : List String)
    (hpre : ∀ q ∈ pre, detectAttemptFails q = true)
    (hp : detectStep p = DetectStep.success ip) :
    detectIpGo (pre ++ p :: post) errs = Except.ok ip := by
  revert hpre
  induction pre generalizing errs with
  | nil =>
    intro _
    rw [List.nil_append, detectIpGo_cons, hp]
  | cons q rest ih =>
    intro hpre
    have hq := hpre q (List.mem_cons_self _ _)
    have hrest : ∀ r ∈ rest, detectAttemptFails r = true :=
      fun r hr => hpre r (List.mem_cons_of_mem _ hr)
    cases hstep : detectStep q with
    | success ip2 =>
      unfold detectAttemptFails at hq
      rw [hstep] at hq
      simp at hq
    | failure m =>
      have hgo : detectIpGo ((q :: rest) ++ p :: post) errs =
          detectIpGo (rest ++ p :: post) (errs ++ [m]) := by
        rw [List.cons_append, detectIpGo_cons, hstep]
      rw [hgo]
      exact ih (errs ++ [m]) hrest
    | skip =>
      have hgo : detectIpGo ((q :: rest) ++ p :: post) errs =
          detectIpGo (rest ++ p :: post) errs := by
        rw [List.cons_append, detectIpGo_cons, hstep]
      rw [hgo]
      exact ih errs hrest

/-- Witness for C9_first_valid_provider_wins: the first provider throws a
network error, the second answers an object with address 203.0.113.5, a
third provider follows; detectIp returns 203.0.113.5. -/
theorem C9_first_valid_provider_wins_witness :
    (∀ q ∈ ([("ipify", Except.error ⟨false, none, "network error"⟩)] :
        List (String × Except JsError JsData)), detectAttemptFails q = true) ∧
    detectStep ("ipinfo", Except.ok (JsData.obj (some "203.0.113.5"))) =
      DetectStep.success "203.0.113.5" ∧
    detectIp [("ipify", Except.error ⟨false, none, "network error"⟩),
      ("ipinfo", Except.ok (JsData.obj (some "203.0.113.5"))),
      ("seeip", Except.ok (JsData.str "9.9.9.9"))] = Except.ok "203.0.113.5" :=
  ⟨by decide, by decide,
    C9_first_valid_provider_wins
      [("ipify", Except.error ⟨false, none, "network error"⟩)]
      [("seeip", Except.ok (JsData.str "9.9.9.9"))]
      ("ipinfo", Except.ok (JsData.obj (some "203.0.113.5"))) "203.0.113.5" []
      (by decide) (by decide)⟩

/-- C10: initialize never raises an exception to its caller: for every
configuration and every outcome of the underlying API calls, including
thrown network errors (every Except.error environment), the try-block
body completes with Except.ok of a boolean and the final configuration —
each helper catches its own request errors — so initialize returns that
boolean. -/
theorem C10_initialize_never_throws (cfg : CFConfig) (env : InitEnv) :
    ∃ r : Bool × CFConfig, initServiceE cfg env = Except.ok r ∧
      initService cfg env = r := by
  obtain ⟨r, hr⟩ : ∃ r, initServiceE cfg env = Except.ok r := by
    unfold initServiceE
    dsimp only
    repeat' split
    all_goals exact ⟨_, rfl⟩
  exact ⟨r, hr, by unfold initService; rw [hr]⟩
